import Mathlib

/-!
Shallow embedding of the hybrid two-tier rate limiter of this repository
(`src/rate-limit/memory-cache.ts`, `src/rate-limit/kv-store.ts`,
`src/rate-limit/hybrid-limiter.ts`, `src/rate-limit/index.ts`).

Modelling conventions:
* JS numbers that hold epoch milliseconds, window sizes and limits are `Int`.
* The JS `Map` backing the LRU cache is an insertion-ordered association list;
  `Map.delete` + `Map.set` (move to end) becomes erase + append.
* JS reference semantics matter in one place: `_processRequest` mutates the
  `record` object in place while the same object is also stored as the cache
  entry's `value`.  That in-place mutation is modelled by `LRUCache.mutateValue`,
  which replaces the stored value while keeping the entry's position and its
  insertion timestamp.
* `Date.now()` is passed in explicitly as `now`; the durable (KV) store is
  modelled for the single key under scrutiny as an `Option StoredRecord`, and
  each call carries two failure flags saying whether the underlying KV `get`
  and `put` throw on that call.  A thrown-and-caught KV error is therefore a
  flag, and "the call does not throw" is the fact that the embedding is a total
  function into `RateLimitResult × LimiterState`.
* The per-key cooperative lock in `checkRequest` serializes all calls for one
  key, so a set of concurrent calls is modelled as a sequence of
  `processRequest` steps (`runCalls`).
-/

/-- Metadata bag attached to a rate-limit record (`types.ts`). -/
structure RLMetadata where
  userAgent : Option String := none
  endpoint : Option String := none
  flags : Option (List String) := none
  escalationLevel : Option Int := none
deriving Repr, DecidableEq

/-- The `timestamps` field of a stored record as it comes back from the durable
store: either an actual array of epoch-ms integers, or a corrupted (non-array)
value, which `_processRequest`'s integrity guard resets to `[]`. -/
inductive TsField where
  | arr (ts : List Int)
  | corrupt
deriving Repr, DecidableEq

/-- `RateLimitRecord` from `types.ts` (with `timestamps` as a `TsField` so that
corrupted durable data is representable). -/
structure StoredRecord where
  timestamps : TsField
  windowMs : Int
  maxRequests : Int
  lastAccess : Int
  metadata : Option RLMetadata := none
deriving Repr, DecidableEq

/-- Where the record used by a `checkRequest` evaluation came from. -/
inductive RLSource where
  | cache
  | kv
  | new
deriving Repr, DecidableEq

/-- The `metadata` field of a `RateLimitResult` (`types.ts`). -/
structure ResultMeta where
  source : RLSource
  kvEnabled : Bool
  escalated : Option Bool := none
deriving Repr, DecidableEq

/-- `RateLimitResult` from `types.ts`. -/
structure RateLimitResult where
  allowed : Bool
  retryAfterSec : Int
  remaining : Int
  resetTime : Int
  metadata : ResultMeta
deriving Repr, DecidableEq

/-- `RateLimitConfig` from `types.ts`. -/
structure RateLimitConfig where
  windowMs : Int
  max : Int
  kvEnabled : Bool
  memoryCacheSize : Nat
  memoryCacheTTL : Int
  cleanupThreshold : Int
  cleanupInterval : Int
  adaptiveEnabled : Bool
deriving Repr, DecidableEq

/-- `CacheEntry<T>` from `memory-cache.ts`: the stored value plus the insertion
time used for TTL expiry. -/
structure CacheEntry (T : Type) where
  value : T
  timestamp : Int
deriving Repr, DecidableEq

/-- `LRUCache<T>` from `memory-cache.ts`.  The backing JS `Map` is an
insertion-ordered association list: head = oldest, tail = most recent. -/
structure LRUCache (T : Type) where
  entries : List (String × CacheEntry T)
  maxSize : Nat
  ttl : Int
deriving Repr, DecidableEq

/-- Lookup in the backing map (JS `Map.get`). -/
def lookupE {T : Type} : List (String × CacheEntry T) → String → Option (CacheEntry T)
  | [], _ => none
  | p :: rest, key => if p.1 = key then some p.2 else lookupE rest key

/-- Removal from the backing map (JS `Map.delete`; keys are unique, so
filtering out the key is the removal of its single binding). -/
def eraseE {T : Type} (l : List (String × CacheEntry T)) (key : String) :
    List (String × CacheEntry T) :=
  l.filter (fun p => p.1 ≠ key)

/-- JS `Map.has`. -/
def containsE {T : Type} (l : List (String × CacheEntry T)) (key : String) : Bool :=
  (lookupE l key).isSome

/-- `LRUCache.get` (`memory-cache.ts` lines 18–34): miss on absent key; evict
and miss when the entry is older than `ttl`; otherwise move the entry to the
most-recently-used end and return its value.  Returns the value together with
the updated cache. -/
def LRUCache.get {T : Type} (c : LRUCache T) (key : String) (now : Int) :
    Option T × LRUCache T :=
  match lookupE c.entries key with
  | none => (none, c)
  | some e =>
    if now - e.timestamp > c.ttl then
      (none, { c with entries := eraseE c.entries key })
    else
      (some e.value, { c with entries := eraseE c.entries key ++ [(key, e)] })

/-- `LRUCache.set` (`memory-cache.ts` lines 36–52): delete an existing binding,
evict the single oldest entry when `size ≥ maxSize` (the `firstKey !== undefined`
guard is the match on the empty list), then insert at the most-recent end. -/
def LRUCache.set {T : Type} (c : LRUCache T) (key : String) (v : T) (now : Int) :
    LRUCache T :=
  let entries1 := if containsE c.entries key then eraseE c.entries key else c.entries
  let entries2 :=
    if entries1.length ≥ c.maxSize then
      match entries1 with
      | [] => ([] : List (String × CacheEntry T))
      | _ :: rest => rest
    else entries1
  { c with entries := entries2 ++ [(key, ⟨v, now⟩)] }

/-- In-place mutation of the record object aliased by a cache entry
(`record.timestamps = ...` etc. in `_processRequest` acting on the same object
that `memoryCache` stores): the stored value is replaced, the entry keeps its
position and insertion timestamp. -/
def LRUCache.mutateValue {T : Type} (c : LRUCache T) (key : String) (v : T) :
    LRUCache T :=
  { c with entries := c.entries.map (fun p => if p.1 = key then (p.1, ⟨v, p.2.timestamp⟩) else p) }

/-- `Math.ceil(a / b)` for integers with `b > 0`. -/
def ceilDiv (a b : Int) : Int :=
  (a + b - 1) / b

/-- `generateKey` (`hybrid-limiter.ts` line 172). -/
def generateKey (userKey : String) : String :=
  "rl:v1:" ++ userKey

/-- The integrity guard of `_processRequest` (lines 84–87): a non-array
`timestamps` value is reset to the empty list. -/
def tsOf : TsField → List Int
  | TsField.arr l => l
  | TsField.corrupt => []

/-- State of one `HybridRateLimiter` restricted to a single durable key: the L1
cache (which may also hold entries for other keys) and the durable-store (L2)
content for the key under scrutiny.  The claims under verification only ever
exercise one key, and the limiter touches L2 only under `generateKey key`. -/
structure LimiterState where
  memoryCache : LRUCache StoredRecord
  kvData : Option StoredRecord
deriving Repr, DecidableEq

/-- Steps 1–2 of `_processRequest` (`hybrid-limiter.ts` lines 49–70): L1
lookup, then on a miss — with the durable tier enabled — a KV `get` whose
failure is caught and leaves the record absent.  Returns the loaded record,
the `source` tag and the updated L1 cache (a KV hit populates L1). -/
def loadRecord (cfg : RateLimitConfig) (cache : LRUCache StoredRecord)
    (kvData : Option StoredRecord) (rlKey : String) (now : Int) (kvGetFails : Bool) :
    Option StoredRecord × RLSource × LRUCache StoredRecord :=
  match cache.get rlKey now with
  | (some r, c1) => (some r, RLSource.cache, c1)
  | (none, c1) =>
    if cfg.kvEnabled then
      if kvGetFails then (none, RLSource.new, c1)
      else
        match kvData with
        | some r => (some r, RLSource.kv, c1.set rlKey r now)
        | none => (none, RLSource.new, c1)
    else (none, RLSource.new, c1)

/-- The sliding-window evaluation of `_processRequest` (lines 96–98 and
120–125): prune to timestamps strictly inside the window, decide admission,
and compute the retry hint and the updated timestamp list. -/
structure WindowEval where
  pruned : List Int
  isAllowed : Bool
  retryAfterSec : Int
  newTs : List Int

def evalWindow (windowMs maxRequests now : Int) (ts0 : List Int) : WindowEval :=
  let windowStart := now - windowMs
  let pruned := ts0.filter (fun t => windowStart < t)
  let isAllowed : Bool := (pruned.length : Int) < maxRequests
  let retryAfterSec : Int :=
    if isAllowed then 0
    else if 0 < pruned.length then ceilDiv (pruned.headD 0 + windowMs - now) 1000
    else ceilDiv windowMs 1000
  let newTs := if isAllowed then pruned ++ [now] else pruned
  ⟨pruned, isAllowed, retryAfterSec, newTs⟩

/-- `resetTime` (`hybrid-limiter.ts` line 153): `record.timestamps[0]` is used
under JS truthiness, so an empty list — and also a head equal to `0` — falls
back to `now + windowMs`. -/
def resetTimeOf (ts : List Int) (windowMs now : Int) : Int :=
  match ts with
  | [] => now + windowMs
  | t :: _ => if t ≠ 0 then t + windowMs else now + windowMs

/-- `_processRequest` (`hybrid-limiter.ts` lines 40–170), one call for the key
under scrutiny.  `kvGetFails` / `kvPutFails` say whether the durable store
throws on this call's `get` / `put`; both exceptions are caught inside, so the
function is total.  Returns the `RateLimitResult` and the post-call state. -/
def processRequest (cfg : RateLimitConfig) (st : LimiterState) (key : String)
    (windowMs maxRequests : Int) (metadata : Option RLMetadata) (now : Int)
    (kvGetFails kvPutFails : Bool) : RateLimitResult × LimiterState :=
  let rlKey := generateKey key
  let (record0, source, cache2) :=
    loadRecord cfg st.memoryCache st.kvData rlKey now kvGetFails
  let isFresh := record0.isNone
  let record1 := record0.getD
    { timestamps := TsField.arr []
      windowMs := windowMs
      maxRequests := maxRequests
      lastAccess := now
      metadata := metadata }
  let ts0 := tsOf record1.timestamps
  let ev := evalWindow windowMs maxRequests now ts0
  let record2 :=
    { record1 with
      timestamps := TsField.arr ev.pruned
      windowMs := windowMs
      maxRequests := maxRequests
      metadata := if metadata.isSome then metadata else record1.metadata }
  if maxRequests = 0 then
    ({ allowed := false
       retryAfterSec := ceilDiv windowMs 1000
       remaining := 0
       resetTime := now + windowMs
       metadata := ⟨source, cfg.kvEnabled,
         if cfg.adaptiveEnabled then some false else none⟩ },
     { st with memoryCache := if isFresh then cache2 else cache2.mutateValue rlKey record2 })
  else
    let record3 := { record2 with timestamps := TsField.arr ev.newTs, lastAccess := now }
    let cache3 := cache2.set rlKey record3 now
    let kvAfter := if cfg.kvEnabled && !kvPutFails then some record3 else st.kvData
    ({ allowed := ev.isAllowed
       retryAfterSec := ev.retryAfterSec
       remaining := max 0 (maxRequests - (ev.newTs.length : Int))
       resetTime := resetTimeOf ev.newTs windowMs now
       metadata := ⟨source, cfg.kvEnabled,
         if cfg.adaptiveEnabled && !ev.isAllowed then some false else none⟩ },
     { memoryCache := cache3, kvData := kvAfter })

/-- One call in a trace: its `Date.now()` and whether the durable store's `get`
and `put` throw on that call. -/
structure CallSpec where
  now : Int
  kvGetFails : Bool
  kvPutFails : Bool
deriving Repr, DecidableEq

/-- A sequence of `checkRequest` calls for one key with fixed window parameters
(the per-key cooperative lock of `checkRequest`, lines 27–38, serializes them),
counting how many results were `allowed = true`. -/
def runCalls (cfg : RateLimitConfig) (key : String) (windowMs maxRequests : Int)
    (metadata : Option RLMetadata) : LimiterState → List CallSpec → Nat × LimiterState
  | st, [] => (0, st)
  | st, c :: rest =>
    let (res, st1) := processRequest cfg st key windowMs maxRequests metadata
      c.now c.kvGetFails c.kvPutFails
    let (n, stf) := runCalls cfg key windowMs maxRequests metadata st1 rest
    ((if res.allowed then 1 else 0) + n, stf)

/-- The limiter constructed by `initializeRateLimiter` (`index.ts` lines 7–14):
an empty L1 cache sized from the config; the durable namespace's pre-existing
content for the key under scrutiny is `kvData`. -/
def initialState (cfg : RateLimitConfig) (kvData : Option StoredRecord) : LimiterState :=
  ⟨⟨[], cfg.memoryCacheSize, cfg.memoryCacheTTL⟩, kvData⟩

/-- The module-level registry of `index.ts`: either no limiter, or an active
limiter with its config and state. -/
def Registry : Type := Option (RateLimitConfig × LimiterState)

/-- The configuration error thrown by `checkRateLimit` when no limiter is
initialized (`index.ts` line 23). -/
inductive RegistryError where
  | notInitialized
deriving Repr, DecidableEq

/-- `initializeRateLimiter` (`index.ts` lines 7–14): disposes any previous
limiter and installs a fresh one. -/
def initializeRateLimiter (_prev : Registry) (kvData : Option StoredRecord)
    (cfg : RateLimitConfig) : Registry :=
  some (cfg, initialState cfg kvData)

/-- `disposeRateLimiter` (`index.ts` lines 55–60). -/
def disposeRateLimiter (_reg : Registry) : Registry :=
  none

/-- `checkRateLimit` (`index.ts` lines 16–27): throws (`Except.error`) when no
limiter is initialized, otherwise delegates to `checkRequest`, which is total. -/
def checkRateLimit (reg : Registry) (key : String) (windowMs maxRequests : Int)
    (metadata : Option RLMetadata) (now : Int) (kvGetFails kvPutFails : Bool) :
    Except RegistryError (RateLimitResult × LimiterState) :=
  match reg with
  | none => Except.error RegistryError.notInitialized
  | some (cfg, st) =>
    Except.ok (processRequest cfg st key windowMs maxRequests metadata now kvGetFails kvPutFails)

/-- Outcome of one underlying Cloudflare KV operation: the value it produces,
or the exception it throws. -/
def KVOutcome (α : Type) : Type := Except String α

/-- `CloudflareKVStore.get` (`kv-store.ts` lines 10–24): a thrown error is
caught and becomes `null`; a falsy parsed value also becomes `null`. -/
def cloudflareKVGet (backend : KVOutcome (Option StoredRecord)) : Option StoredRecord :=
  match backend with
  | Except.ok v => v
  | Except.error _ => none

/-- `CloudflareKVStore.put` (`kv-store.ts` lines 26–46): a thrown error is
caught; the method returns normally either way. -/
def cloudflareKVPut (backend : KVOutcome Unit) : Unit :=
  match backend with
  | Except.ok _ => ()
  | Except.error _ => ()

/-- `CloudflareKVStore.delete` (`kv-store.ts` lines 48–60). -/
def cloudflareKVDelete (backend : KVOutcome Unit) : Unit :=
  match backend with
  | Except.ok _ => ()
  | Except.error _ => ()

/-- `CloudflareKVStore.list` (`kv-store.ts` lines 62–79): a thrown error is
caught and becomes the empty key list. -/
def cloudflareKVList (backend : KVOutcome (List String)) : List String :=
  match backend with
  | Except.ok keys => keys
  | Except.error _ => []

/-! ### Association-list lemmas for the L1 cache -/

theorem lookupE_eraseE_self {T : Type} (l : List (String × CacheEntry T)) (key : String) :
    lookupE (eraseE l key) key = none := by
  induction l with
  | nil => rfl
  | cons p rest ih =>
    by_cases h : p.1 = key
    · simp [eraseE, List.filter, h] at ih ⊢
      simpa [eraseE] using ih
    · simp [eraseE, List.filter, h] at ih ⊢
      simpa [eraseE, lookupE, h] using ih

theorem lookupE_append_of_none {T : Type} {l1 : List (String × CacheEntry T)}
    (l2 : List (String × CacheEntry T)) {key : String} (h : lookupE l1 key = none) :
    lookupE (l1 ++ l2) key = lookupE l2 key := by
  induction l1 with
  | nil => rfl
  | cons p rest ih =>
    by_cases hk : p.1 = key
    · simp [lookupE, hk] at h
    · simp [lookupE, hk] at h ⊢
      exact ih h

theorem lookupE_none_of_isSome_false {T : Type} {l : List (String × CacheEntry T)}
    {key : String} (h : (lookupE l key).isSome = false) : lookupE l key = none := by
  cases hE : lookupE l key with
  | none => rfl
  | some e => rw [hE] at h; simp at h

theorem lookupE_tail_of_none {T : Type} {l : List (String × CacheEntry T)} {key : String}
    (h : lookupE l key = none) :
    lookupE (match l with
      | [] => ([] : List (String × CacheEntry T))
      | _ :: rest => rest) key = none := by
  cases l with
  | nil => rfl
  | cons p rest =>
    by_cases hk : p.1 = key
    · simp [lookupE, hk] at h
    · simpa [lookupE, hk] using h

/-- After `set key v now`, the cache binds `key` to the freshly inserted
entry. -/
theorem lookupE_set_self {T : Type} (c : LRUCache T) (key : String) (v : T) (now : Int) :
    lookupE (c.set key v now).entries key = some ⟨v, now⟩ := by
  unfold LRUCache.set
  have h1 : lookupE (if containsE c.entries key then eraseE c.entries key else c.entries)
      key = none := by
    by_cases h : containsE c.entries key
    · simp [h, lookupE_eraseE_self]
    · simp [h]
      exact lookupE_none_of_isSome_false (by simpa [containsE] using h)
  set entries1 := if containsE c.entries key then eraseE c.entries key else c.entries with hE1
  by_cases hsz : entries1.length ≥ c.maxSize
  · simp only [hsz, if_pos]
    rw [lookupE_append_of_none _ (lookupE_tail_of_none h1)]
    simp [lookupE]
  · simp only [hsz, if_neg, if_false]
    rw [lookupE_append_of_none _ h1]
    simp [lookupE]

theorem lookupE_map_mutate {T : Type} (key : String) (v : T) :
    ∀ l : List (String × CacheEntry T),
      lookupE (l.map fun p => if p.1 = key then (p.1, ⟨v, p.2.timestamp⟩) else p) key =
        (lookupE l key).map (fun e => ⟨v, e.timestamp⟩)
  | [] => rfl
  | p :: rest => by
    by_cases hk : p.1 = key
    · simp [lookupE, hk]
    · simp [lookupE, hk, lookupE_map_mutate key v rest]

theorem lookupE_mutateValue_self {T : Type} (c : LRUCache T) (key : String) (v : T) :
    lookupE (c.mutateValue key v).entries key =
      (lookupE c.entries key).map (fun e => ⟨v, e.timestamp⟩) :=
  lookupE_map_mutate key v c.entries

theorem set_ttl {T : Type} (c : LRUCache T) (key : String) (v : T) (now : Int) :
    (c.set key v now).ttl = c.ttl := rfl

theorem set_maxSize {T : Type} (c : LRUCache T) (key : String) (v : T) (now : Int) :
    (c.set key v now).maxSize = c.maxSize := rfl

theorem mutateValue_ttl {T : Type} (c : LRUCache T) (key : String) (v : T) :
    (c.mutateValue key v).ttl = c.ttl := rfl

theorem get_snd_ttl {T : Type} (c : LRUCache T) (key : String) (now : Int) :
    ((c.get key now).2).ttl = c.ttl := by
  unfold LRUCache.get
  cases lookupE c.entries key with
  | none => rfl
  | some e =>
    by_cases h : now - e.timestamp > c.ttl
    · simp [h]
    · simp [h]

/-! ### Characterization of one `_processRequest` call -/

theorem loadRecord_hit {cache : LRUCache StoredRecord} {rlKey : String} {now : Int}
    {e : CacheEntry StoredRecord} (cfg : RateLimitConfig) (kvData : Option StoredRecord)
    (kvGetFails : Bool) (hl : lookupE cache.entries rlKey = some e)
    (he : ¬(now - e.timestamp > cache.ttl)) :
    loadRecord cfg cache kvData rlKey now kvGetFails =
      (some e.value, RLSource.cache,
        { cache with entries := eraseE cache.entries rlKey ++ [(rlKey, e)] }) := by
  unfold loadRecord LRUCache.get
  rw [hl]
  simp [he]

theorem loadRecord_miss_none {cache : LRUCache StoredRecord} {rlKey : String} {now : Int}
    {cfg : RateLimitConfig} {kvData : Option StoredRecord} {kvGetFails : Bool}
    (hl : lookupE cache.entries rlKey = none)
    (hkv : cfg.kvEnabled = false ∨ kvGetFails = true ∨ kvData = none) :
    loadRecord cfg cache kvData rlKey now kvGetFails = (none, RLSource.new, cache) := by
  unfold loadRecord LRUCache.get
  rw [hl]
  rcases hkv with h | h | h
  · simp [h]
  · simp [h]
  · subst h
    by_cases hke : cfg.kvEnabled <;> by_cases hgf : kvGetFails <;> simp [hke, hgf]

theorem loadRecord_miss_kv {cache : LRUCache StoredRecord} {rlKey : String} {now : Int}
    {cfg : RateLimitConfig} {r : StoredRecord}
    (kvGetFails : Bool) (hl : lookupE cache.entries rlKey = none)
    (hke : cfg.kvEnabled = true) (hgf : kvGetFails = false) :
    loadRecord cfg cache (some r) rlKey now kvGetFails =
      (some r, RLSource.kv, cache.set rlKey r now) := by
  unfold loadRecord LRUCache.get
  rw [hl]
  simp [hke, hgf]

theorem loadRecord_ttl (cfg : RateLimitConfig) (cache : LRUCache StoredRecord)
    (kvData : Option StoredRecord) (rlKey : String) (now : Int) (kvGetFails : Bool) :
    ((loadRecord cfg cache kvData rlKey now kvGetFails).2.2).ttl = cache.ttl := by
  unfold loadRecord LRUCache.get
  cases hE : lookupE cache.entries rlKey with
  | none =>
    cases kvData <;> by_cases hke : cfg.kvEnabled <;> by_cases hgf : kvGetFails <;>
      simp [hke, hgf, set_ttl]
  | some e =>
    by_cases h : now - e.timestamp > cache.ttl
    · cases kvData <;> by_cases hke : cfg.kvEnabled <;> by_cases hgf : kvGetFails <;>
        simp [h, hke, hgf, set_ttl]
    · simp [h]

/-- A `_processRequest` call with `maxRequests ≠ 0`, expressed through the
outcome of its load phase. -/
theorem processRequest_eq_of_load (cfg : RateLimitConfig) (st : LimiterState) (key : String)
    (w m : Int) (md : Option RLMetadata) (now : Int) (gf pf : Bool)
    (ro : Option StoredRecord) (src : RLSource) (c2 : LRUCache StoredRecord)
    (h : loadRecord cfg st.memoryCache st.kvData (generateKey key) now gf = (ro, src, c2))
    (hm : m ≠ 0) :
    processRequest cfg st key w m md now gf pf =
      (let rec1 := ro.getD ⟨TsField.arr [], w, m, now, md⟩
       let ev := evalWindow w m now (tsOf rec1.timestamps)
       let rec3 : StoredRecord :=
         ⟨TsField.arr ev.newTs, w, m, now, if md.isSome then md else rec1.metadata⟩
       (⟨ev.isAllowed, ev.retryAfterSec, max 0 (m - (ev.newTs.length : Int)),
         resetTimeOf ev.newTs w now,
         ⟨src, cfg.kvEnabled,
          if cfg.adaptiveEnabled && !ev.isAllowed then some false else none⟩⟩,
        ⟨c2.set (generateKey key) rec3 now,
         if cfg.kvEnabled && !pf then some rec3 else st.kvData⟩)) := by
  simp only [processRequest]
  rw [h]
  simp only [hm, if_false]

/-- A `_processRequest` call with `maxRequests = 0` (the zero-limit special
case), expressed through the outcome of its load phase.  Note that the prune
and the parameter overwrite have already mutated the record object aliased by
the cache entry before the early return. -/
theorem processRequest_eq_of_load_zero (cfg : RateLimitConfig) (st : LimiterState)
    (key : String) (w : Int) (md : Option RLMetadata) (now : Int) (gf pf : Bool)
    (ro : Option StoredRecord) (src : RLSource) (c2 : LRUCache StoredRecord)
    (h : loadRecord cfg st.memoryCache st.kvData (generateKey key) now gf = (ro, src, c2)) :
    processRequest cfg st key w 0 md now gf pf =
      (let rec1 := ro.getD ⟨TsField.arr [], w, 0, now, md⟩
       let ev := evalWindow w 0 now (tsOf rec1.timestamps)
       let rec2 : StoredRecord :=
         ⟨TsField.arr ev.pruned, w, 0, rec1.lastAccess,
          if md.isSome then md else rec1.metadata⟩
       (⟨false, ceilDiv w 1000, 0, now + w,
         ⟨src, cfg.kvEnabled, if cfg.adaptiveEnabled then some false else none⟩⟩,
        ⟨if ro.isNone then c2 else c2.mutateValue (generateKey key) rec2,
         st.kvData⟩)) := by
  simp only [processRequest]
  rw [h]
  rfl

/-! ### Pure facts about the sliding-window evaluation -/

theorem evalWindow_pruned (w m now : Int) (ts0 : List Int) :
    (evalWindow w m now ts0).pruned = ts0.filter (fun t => now - w < t) := rfl

theorem evalWindow_isAllowed (w m now : Int) (ts0 : List Int) :
    (evalWindow w m now ts0).isAllowed =
      decide (((ts0.filter (fun t => now - w < t)).length : Int) < m) := rfl

theorem evalWindow_retry (w m now : Int) (ts0 : List Int) :
    (evalWindow w m now ts0).retryAfterSec =
      (if (evalWindow w m now ts0).isAllowed then 0
       else if 0 < (evalWindow w m now ts0).pruned.length then
         ceilDiv ((evalWindow w m now ts0).pruned.headD 0 + w - now) 1000
       else ceilDiv w 1000) := rfl

theorem evalWindow_newTs (w m now : Int) (ts0 : List Int) :
    (evalWindow w m now ts0).newTs =
      (if (evalWindow w m now ts0).isAllowed then
        (evalWindow w m now ts0).pruned ++ [now]
       else (evalWindow w m now ts0).pruned) := rfl

theorem one_le_ceilDiv {a b : Int} (ha : 1 ≤ a) (hb : 0 < b) : 1 ≤ ceilDiv a b := by
  have hb' : b ≠ 0 := by omega
  have h1 : b ≤ a + b - 1 := by omega
  calc (1 : Int) = b / b := (Int.ediv_self hb').symm
    _ ≤ (a + b - 1) / b := Int.ediv_le_ediv hb h1

theorem evalWindow_allowed_retry (w m now : Int) (ts0 : List Int) (hw : 1 ≤ w) :
    ((evalWindow w m now ts0).isAllowed = true ↔
      (evalWindow w m now ts0).retryAfterSec = 0) ∧
    ((evalWindow w m now ts0).isAllowed = false →
      1 ≤ (evalWindow w m now ts0).retryAfterSec) := by
  by_cases ha : (evalWindow w m now ts0).isAllowed
  · rw [evalWindow_retry, if_pos ha]
    simp [ha]
  · have hret : 1 ≤ (evalWindow w m now ts0).retryAfterSec := by
      rw [evalWindow_retry, if_neg ha]
      by_cases hl : 0 < (evalWindow w m now ts0).pruned.length
      · rw [if_pos hl]
        have hne : (evalWindow w m now ts0).pruned ≠ [] := by
          intro hnil
          rw [hnil] at hl
          simp at hl
        obtain ⟨t, rest, hp⟩ := List.exists_cons_of_ne_nil hne
        have hmem : t ∈ (evalWindow w m now ts0).pruned := by
          rw [hp]
          exact List.mem_cons_self t rest
        rw [evalWindow_pruned] at hmem
        have ht : now - w < t := by
          have := List.mem_filter.mp hmem
          exact of_decide_eq_true this.2
        have hD : (evalWindow w m now ts0).pruned.headD 0 = t := by
          rw [hp]
          rfl
        rw [hD]
        exact one_le_ceilDiv (by omega) (by omega)
      · rw [if_neg hl]
        exact one_le_ceilDiv hw (by omega)
    constructor
    · constructor
      · intro h
        exact absurd h ha
      · intro h
        omega
    · intro _
      exact hret

/-- C10: for every `checkRequest` evaluation with `windowMs ≥ 1`, the result
has `allowed = true` iff `retryAfterSec = 0`; equivalently every denied result
(including the `maxRequests = 0` zero-limit case) has `retryAfterSec ≥ 1`. -/
theorem c10_allowed_iff_retry_zero (cfg : RateLimitConfig) (st : LimiterState)
    (key : String) (w m : Int) (md : Option RLMetadata) (now : Int) (gf pf : Bool)
    (hw : 1 ≤ w) :
    ((processRequest cfg st key w m md now gf pf).1.allowed = true ↔
      (processRequest cfg st key w m md now gf pf).1.retryAfterSec = 0) ∧
    ((processRequest cfg st key w m md now gf pf).1.allowed = false →
      1 ≤ (processRequest cfg st key w m md now gf pf).1.retryAfterSec) := by
  obtain ⟨ro, src, c2, h⟩ :
      ∃ ro src c2,
        loadRecord cfg st.memoryCache st.kvData (generateKey key) now gf = (ro, src, c2) :=
    ⟨_, _, _, rfl⟩
  by_cases hm : m = 0
  · subst hm
    rw [processRequest_eq_of_load_zero cfg st key w md now gf pf ro src c2 h]
    have h1 : (1 : Int) ≤ ceilDiv w 1000 := one_le_ceilDiv hw (by omega)
    constructor
    · constructor
      · intro hfalse
        simp at hfalse
      · intro hzero
        simp at hzero
        omega
    · intro _
      simpa using h1
  · rw [processRequest_eq_of_load cfg st key w m md now gf pf ro src c2 h hm]
    simpa using evalWindow_allowed_retry w m now
      (tsOf (ro.getD ⟨TsField.arr [], w, m, now, md⟩).timestamps) hw

/-- Witness for `c10_allowed_iff_retry_zero` at a concrete input. -/
theorem c10_allowed_iff_retry_zero_witness :
    (1 : Int) ≤ 1 ∧
    (((processRequest ⟨1, 1, false, 10, 100, 0, 0, false⟩
        (initialState ⟨1, 1, false, 10, 100, 0, 0, false⟩ none) "u" 1 1 none 0
        false false).1.allowed = true ↔
      (processRequest ⟨1, 1, false, 10, 100, 0, 0, false⟩
        (initialState ⟨1, 1, false, 10, 100, 0, 0, false⟩ none) "u" 1 1 none 0
        false false).1.retryAfterSec = 0) ∧
     ((processRequest ⟨1, 1, false, 10, 100, 0, 0, false⟩
        (initialState ⟨1, 1, false, 10, 100, 0, 0, false⟩ none) "u" 1 1 none 0
        false false).1.allowed = false →
      1 ≤ (processRequest ⟨1, 1, false, 10, 100, 0, 0, false⟩
        (initialState ⟨1, 1, false, 10, 100, 0, 0, false⟩ none) "u" 1 1 none 0
        false false).1.retryAfterSec)) :=
  ⟨by decide,
   c10_allowed_iff_retry_zero ⟨1, 1, false, 10, 100, 0, 0, false⟩
     (initialState ⟨1, 1, false, 10, 100, 0, 0, false⟩ none) "u" 1 1 none 0
     false false (by decide)⟩

/-! ### C7: the zero-capacity LRU cache -/

/-- C7 counterexample: with `maxSize = 0`, a `set` is *not* immediately
evicted — `LRUCache.set` evicts the oldest entry *before* inserting (and on an
empty map there is nothing to evict), so the fresh entry is stored and the next
`get` of that key returns the value instead of `null`. -/
theorem c7_zero_capacity_counterexample :
    ((((⟨[], 0, 300000⟩ : LRUCache Nat).set "a" 7 100).get "a" 100).1 = some 7) ∧
    ((((⟨[], 0, 300000⟩ : LRUCache Nat).set "a" 7 100).get "a" 100).1 ≠ none) := by
  decide

/-- C7 amended: for a cache with `maxSize = 0` (whose reachable states hold at
most one entry), every `set key v` leaves exactly the just-inserted entry in
the cache: a `get` of that key within the TTL returns the value, and a `get`
of any other key misses. -/
theorem c7_zero_capacity_amended {T : Type} (c : LRUCache T) (k k' : String) (v : T)
    (t t' : Int) (h0 : c.maxSize = 0) (h1 : c.entries.length ≤ 1)
    (hk' : k' ≠ k) (hT : ¬(t' - t > c.ttl)) :
    (c.set k v t).entries = [(k, ⟨v, t⟩)] ∧
    ((c.set k v t).get k t').1 = some v ∧
    ((c.set k v t).get k' t').1 = none := by
  have hset : (c.set k v t).entries = [(k, ⟨v, t⟩)] := by
    unfold LRUCache.set
    rcases hE : c.entries with _ | ⟨p, rest⟩
    · simp [containsE, lookupE, eraseE, h0]
    · rcases rest with _ | ⟨q, rest2⟩
      · by_cases hk : p.1 = k
        · simp [containsE, lookupE, hk, eraseE, h0]
        · simp [containsE, lookupE, hk, h0]
      · rw [hE] at h1
        simp at h1
  refine ⟨hset, ?_, ?_⟩
  · unfold LRUCache.get
    rw [hset]
    have httl : (c.set k v t).ttl = c.ttl := set_ttl c k v t
    simp only [lookupE, if_pos rfl]
    rw [httl]
    simp [hT]
  · unfold LRUCache.get
    rw [hset]
    have : k ≠ k' := fun h => hk' h.symm
    simp [lookupE, this]

/-- Witness for `c7_zero_capacity_amended` at a concrete input. -/
theorem c7_zero_capacity_amended_witness :
    (((⟨[], 0, 5⟩ : LRUCache Nat).set "a" 3 0).entries = [("a", ⟨3, 0⟩)]) ∧
    ((((⟨[], 0, 5⟩ : LRUCache Nat).set "a" 3 0).get "a" 1).1 = some 3) ∧
    ((((⟨[], 0, 5⟩ : LRUCache Nat).set "a" 3 0).get "b" 1).1 = none) :=
  c7_zero_capacity_amended (⟨[], 0, 5⟩ : LRUCache Nat) "a" "b" 3 0 1
    (by decide) (by decide) (by decide) (by decide)

/-! ### C3: the zero-limit special case -/

/-- C3 counterexample: a zero-limit call does *not* leave the stored
timestamps unchanged.  With a cached record whose single timestamp `0` has
expired by `now = 20` (window 10 ms), the prune at step 6 of `_processRequest`
runs *before* the zero-limit early return and mutates the record object that
the L1 cache holds: the stored list changes from `[0]` to `[]` (and the stored
`maxRequests` is overwritten to `0`). -/
theorem c3_zero_limit_mutation_counterexample :
    (processRequest ⟨5000, 3, false, 100, 60000, 0, 0, false⟩
        ⟨⟨[("rl:v1:u", ⟨⟨TsField.arr [0], 10, 5, 0, none⟩, 0⟩)], 10, 100⟩, none⟩
        "u" 10 0 none 20 false false).2.memoryCache.entries =
      [("rl:v1:u", ⟨⟨TsField.arr [], 10, 0, 0, none⟩, 0⟩)] ∧
    TsField.arr ([] : List Int) ≠ TsField.arr [0] ∧
    (processRequest ⟨5000, 3, false, 100, 60000, 0, 0, false⟩
        ⟨⟨[("rl:v1:u", ⟨⟨TsField.arr [0], 10, 5, 0, none⟩, 0⟩)], 10, 100⟩, none⟩
        "u" 10 0 none 20 false false).1.allowed = false := by
  decide

/-- C3 amended: a `checkRequest` call with `maxRequests = 0` always denies
with `retryAfterSec = ceil(windowMs / 1000)` and `remaining = 0`, appends no
timestamp, and writes nothing to the durable store; however the stored (L1)
record is *not* left untouched — its timestamps are pruned to the window (so
they are unchanged exactly when no stored timestamp has expired) and its
window parameters are overwritten. -/
theorem c3_zero_limit_amended (cfg : RateLimitConfig) (st : LimiterState) (key : String)
    (w : Int) (md : Option RLMetadata) (now : Int) (gf pf : Bool)
    (e : CacheEntry StoredRecord) (ts0 : List Int)
    (hl : lookupE st.memoryCache.entries (generateKey key) = some e)
    (he : ¬(now - e.timestamp > st.memoryCache.ttl))
    (hts : e.value.timestamps = TsField.arr ts0) :
    (processRequest cfg st key w 0 md now gf pf).1.allowed = false ∧
    (processRequest cfg st key w 0 md now gf pf).1.retryAfterSec = ceilDiv w 1000 ∧
    (processRequest cfg st key w 0 md now gf pf).1.remaining = 0 ∧
    (processRequest cfg st key w 0 md now gf pf).2.kvData = st.kvData ∧
    lookupE (processRequest cfg st key w 0 md now gf pf).2.memoryCache.entries
        (generateKey key) =
      some ⟨⟨TsField.arr (ts0.filter (fun t => now - w < t)), w, 0, e.value.lastAccess,
        if md.isSome then md else e.value.metadata⟩, e.timestamp⟩ ∧
    ((∀ t ∈ ts0, now - w < t) → ts0.filter (fun t => now - w < t) = ts0) := by
  have hload := loadRecord_hit cfg st.kvData gf hl he
  rw [processRequest_eq_of_load_zero cfg st key w md now gf pf (some e.value) RLSource.cache _ hload]
  refine ⟨rfl, rfl, rfl, rfl, ?_, ?_⟩
  · simp only [Option.isNone_some, Bool.false_eq_true, if_false, Option.getD_some,
      lookupE_mutateValue_self]
    rw [lookupE_append_of_none _ (lookupE_eraseE_self _ _)]
    simp [lookupE, hts, tsOf, evalWindow_pruned]
  · intro hall
    rw [List.filter_eq_self]
    intro t ht
    exact decide_eq_true (hall t ht)

/-- Witness for `c3_zero_limit_amended` at a concrete input. -/
theorem c3_zero_limit_amended_witness :
    (processRequest ⟨5000, 3, false, 100, 60000, 0, 0, false⟩
        ⟨⟨[("rl:v1:u", ⟨⟨TsField.arr [3], 10, 5, 0, none⟩, 0⟩)], 10, 100⟩, none⟩
        "u" 10 0 none 4 false false).1.allowed = false ∧
    (processRequest ⟨5000, 3, false, 100, 60000, 0, 0, false⟩
        ⟨⟨[("rl:v1:u", ⟨⟨TsField.arr [3], 10, 5, 0, none⟩, 0⟩)], 10, 100⟩, none⟩
        "u" 10 0 none 4 false false).1.retryAfterSec = ceilDiv 10 1000 ∧
    (processRequest ⟨5000, 3, false, 100, 60000, 0, 0, false⟩
        ⟨⟨[("rl:v1:u", ⟨⟨TsField.arr [3], 10, 5, 0, none⟩, 0⟩)], 10, 100⟩, none⟩
        "u" 10 0 none 4 false false).1.remaining = 0 ∧
    (processRequest ⟨5000, 3, false, 100, 60000, 0, 0, false⟩
        ⟨⟨[("rl:v1:u", ⟨⟨TsField.arr [3], 10, 5, 0, none⟩, 0⟩)], 10, 100⟩, none⟩
        "u" 10 0 none 4 false false).2.kvData =
      (⟨⟨[("rl:v1:u", ⟨⟨TsField.arr [3], 10, 5, 0, none⟩, 0⟩)], 10, 100⟩, none⟩ :
        LimiterState).kvData ∧
    lookupE (processRequest ⟨5000, 3, false, 100, 60000, 0, 0, false⟩
        ⟨⟨[("rl:v1:u", ⟨⟨TsField.arr [3], 10, 5, 0, none⟩, 0⟩)], 10, 100⟩, none⟩
        "u" 10 0 none 4 false false).2.memoryCache.entries (generateKey "u") =
      some ⟨⟨TsField.arr (([3] : List Int).filter (fun t => 4 - 10 < t)), 10, 0, 0,
        none⟩, 0⟩ ∧
    ((∀ t ∈ ([3] : List Int), (4 : Int) - 10 < t) →
      ([3] : List Int).filter (fun t => 4 - 10 < t) = [3]) :=
  c3_zero_limit_amended ⟨5000, 3, false, 100, 60000, 0, 0, false⟩
    ⟨⟨[("rl:v1:u", ⟨⟨TsField.arr [3], 10, 5, 0, none⟩, 0⟩)], 10, 100⟩, none⟩
    "u" 10 none 4 false false ⟨⟨TsField.arr [3], 10, 5, 0, none⟩, 0⟩ [3]
    (by decide) (by decide) (by decide)

/-! ### C8: the durable-store boundary never throws -/

/-- C8: every `CloudflareKVStore` method catches any failure of the underlying
backend and returns a neutral value to its caller — a failed `get` returns
`null`, a failed `put`/`delete` returns normally, a failed `list` returns `[]`;
on success the backend's value passes through. -/
theorem c8_kv_store_never_throws :
    (∀ msg : String, cloudflareKVGet (Except.error msg) = none) ∧
    (∀ msg : String, cloudflareKVPut (Except.error msg) = ()) ∧
    (∀ msg : String, cloudflareKVDelete (Except.error msg) = ()) ∧
    (∀ msg : String, cloudflareKVList (Except.error msg) = []) ∧
    (∀ v : Option StoredRecord, cloudflareKVGet (Except.ok v) = v) ∧
    (∀ keys : List String, cloudflareKVList (Except.ok keys) = keys) :=
  ⟨fun _ => rfl, fun _ => rfl, fun _ => rfl, fun _ => rfl, fun _ => rfl, fun _ => rfl⟩

/-! ### C9: the registry's configuration error -/

/-- C9: `checkRateLimit` with no initialized limiter (before
`initializeRateLimiter`, or after `disposeRateLimiter`) immediately throws the
configuration error, and once a limiter is initialized it returns a normal
result (`Except.ok`) — no exception other than the configuration error can
propagate. -/
theorem c9_registry_config_error :
    (∀ (key : String) (w m : Int) (md : Option RLMetadata) (now : Int) (gf pf : Bool),
      checkRateLimit none key w m md now gf pf =
        Except.error RegistryError.notInitialized) ∧
    (∀ (reg : Registry) (key : String) (w m : Int) (md : Option RLMetadata) (now : Int)
        (gf pf : Bool),
      checkRateLimit (disposeRateLimiter reg) key w m md now gf pf =
        Except.error RegistryError.notInitialized) ∧
    (∀ (prev : Registry) (kv : Option StoredRecord) (cfg : RateLimitConfig) (key : String)
        (w m : Int) (md : Option RLMetadata) (now : Int) (gf pf : Bool),
      checkRateLimit (initializeRateLimiter prev kv cfg) key w m md now gf pf =
        Except.ok (processRequest cfg (initialState cfg kv) key w m md now gf pf)) :=
  ⟨fun _ _ _ _ _ _ _ => rfl, fun _ _ _ _ _ _ _ _ => rfl,
   fun _ _ _ _ _ _ _ _ _ _ => rfl⟩

/-! ### C5: full durable-store failure degrades to memory-only behavior -/

theorem loadRecord_gf_true (cfg : RateLimitConfig) (cache : LRUCache StoredRecord)
    (kvData : Option StoredRecord) (rlKey : String) (now : Int) :
    loadRecord cfg cache kvData rlKey now true =
      loadRecord { cfg with kvEnabled := false } cache kvData rlKey now false := by
  unfold loadRecord
  cases h : cache.get rlKey now with
  | mk ro c1 =>
    cases ro with
    | none => by_cases hke : cfg.kvEnabled <;> simp [hke]
    | some r => rfl

/-- C5: a `checkRequest` call on which every durable-store operation (`get`
and `put`) fails does not throw (the embedding stays total) and returns the
same allow/deny decision — `allowed`, `retryAfterSec`, `remaining`,
`resetTime` — that a memory-only limiter (`kvEnabled = false`, no failures)
would produce from the same L1 state. -/
theorem c5_kv_failure_memory_only (cfg : RateLimitConfig) (st : LimiterState)
    (key : String) (w m : Int) (md : Option RLMetadata) (now : Int) :
    (processRequest cfg st key w m md now true true).1.allowed =
      (processRequest { cfg with kvEnabled := false } st key w m md now false false).1.allowed ∧
    (processRequest cfg st key w m md now true true).1.retryAfterSec =
      (processRequest { cfg with kvEnabled := false } st key w m md now false
        false).1.retryAfterSec ∧
    (processRequest cfg st key w m md now true true).1.remaining =
      (processRequest { cfg with kvEnabled := false } st key w m md now false
        false).1.remaining ∧
    (processRequest cfg st key w m md now true true).1.resetTime =
      (processRequest { cfg with kvEnabled := false } st key w m md now false
        false).1.resetTime := by
  obtain ⟨ro, src, c2, h⟩ :
      ∃ ro src c2,
        loadRecord { cfg with kvEnabled := false } st.memoryCache st.kvData
          (generateKey key) now false = (ro, src, c2) :=
    ⟨_, _, _, rfl⟩
  have h1 : loadRecord cfg st.memoryCache st.kvData (generateKey key) now true =
      (ro, src, c2) := (loadRecord_gf_true cfg st.memoryCache st.kvData
        (generateKey key) now).trans h
  by_cases hm : m = 0
  · subst hm
    rw [processRequest_eq_of_load_zero cfg st key w md now true true ro src c2 h1,
      processRequest_eq_of_load_zero { cfg with kvEnabled := false } st key w md now
        false false ro src c2 h]
    exact ⟨rfl, rfl, rfl, rfl⟩
  · rw [processRequest_eq_of_load cfg st key w m md now true true ro src c2 h1 hm,
      processRequest_eq_of_load { cfg with kvEnabled := false } st key w m md now
        false false ro src c2 h hm]
    exact ⟨rfl, rfl, rfl, rfl⟩

/-! ### C6: corrupted durable record is reset, not an error -/

/-- C6: when a `checkRequest` call with `maxRequests ≥ 1` loads (from the
durable store, on an L1 miss) a record whose `timestamps` field is not a list,
no error is raised: the timestamps are reset to the empty list and the call
behaves like a fresh record — `allowed = true`, `remaining = maxRequests - 1`,
and the stored record afterwards holds exactly `[now]`. -/
theorem c6_corrupted_record_reset (cfg : RateLimitConfig) (st : LimiterState)
    (key : String) (w m : Int) (md : Option RLMetadata) (now : Int) (pf : Bool)
    (r : StoredRecord)
    (hl : lookupE st.memoryCache.entries (generateKey key) = none)
    (hke : cfg.kvEnabled = true) (hr : st.kvData = some r)
    (hcor : r.timestamps = TsField.corrupt) (hm : 1 ≤ m) :
    (processRequest cfg st key w m md now false pf).1.allowed = true ∧
    (processRequest cfg st key w m md now false pf).1.retryAfterSec = 0 ∧
    (processRequest cfg st key w m md now false pf).1.remaining = m - 1 ∧
    ∃ rec, lookupE (processRequest cfg st key w m md now false pf).2.memoryCache.entries
        (generateKey key) = some ⟨rec, now⟩ ∧
      rec.timestamps = TsField.arr [now] := by
  have hm0 : m ≠ 0 := by omega
  have hload : loadRecord cfg st.memoryCache st.kvData (generateKey key) now false =
      (some r, RLSource.kv, st.memoryCache.set (generateKey key) r now) := by
    rw [hr]
    exact loadRecord_miss_kv false hl hke rfl
  rw [processRequest_eq_of_load cfg st key w m md now false pf (some r) RLSource.kv _ hload hm0]
  have hts : tsOf r.timestamps = [] := by
    rw [hcor]
    rfl
  have hev : evalWindow w m now [] = ⟨[], true, 0, [now]⟩ := by
    unfold evalWindow
    have h0m : ((0 : Int) < m) = True := by
      simp only [eq_iff_iff, iff_true]
      omega
    simp [h0m]
  constructor
  · simp [hts, hev]
  constructor
  · simp [hts, hev, evalWindow_retry]
  constructor
  · simp [hts, hev]
    omega
  · simp only [Option.getD_some, hts, hev]
    exact ⟨_, lookupE_set_self _ _ _ _, rfl⟩

/-- Witness for `c6_corrupted_record_reset` at a concrete input. -/
theorem c6_corrupted_record_reset_witness :
    (processRequest ⟨5000, 3, true, 10, 100, 0, 0, false⟩
        ⟨⟨[], 10, 100⟩, some ⟨TsField.corrupt, 7, 7, 0, none⟩⟩
        "u" 50 2 none 9 false false).1.allowed = true ∧
    (processRequest ⟨5000, 3, true, 10, 100, 0, 0, false⟩
        ⟨⟨[], 10, 100⟩, some ⟨TsField.corrupt, 7, 7, 0, none⟩⟩
        "u" 50 2 none 9 false false).1.retryAfterSec = 0 ∧
    (processRequest ⟨5000, 3, true, 10, 100, 0, 0, false⟩
        ⟨⟨[], 10, 100⟩, some ⟨TsField.corrupt, 7, 7, 0, none⟩⟩
        "u" 50 2 none 9 false false).1.remaining = 2 - 1 ∧
    ∃ rec, lookupE (processRequest ⟨5000, 3, true, 10, 100, 0, 0, false⟩
        ⟨⟨[], 10, 100⟩, some ⟨TsField.corrupt, 7, 7, 0, none⟩⟩
        "u" 50 2 none 9 false false).2.memoryCache.entries
        (generateKey "u") = some ⟨rec, 9⟩ ∧
      rec.timestamps = TsField.arr [9] :=
  c6_corrupted_record_reset ⟨5000, 3, true, 10, 100, 0, 0, false⟩
    ⟨⟨[], 10, 100⟩, some ⟨TsField.corrupt, 7, 7, 0, none⟩⟩
    "u" 50 2 none 9 false ⟨TsField.corrupt, 7, 7, 0, none⟩
    (by decide) (by decide) (by decide) (by decide) (by decide)

/-! ### C2: strict window boundary -/

/-- C2: the sliding-window prune retains exactly the timestamps strictly
greater than `now - windowMs`, so with `maxRequests = 1` a second call made
exactly `windowMs` after the first is allowed (the first timestamp is exactly
`windowMs` old and is pruned — the stored list afterwards is `[t + w]`), while
a second call made `windowMs - 1` ms after the first is denied (the first
timestamp survives the prune — the stored list afterwards is `[t]`). -/
theorem c2_window_boundary (cfg : RateLimitConfig) (st : LimiterState) (key : String)
    (md : Option RLMetadata) (t w : Int) (gf1 pf1 gf2 pf2 gf3 pf3 : Bool)
    (hent : st.memoryCache.entries = []) (hkv : st.kvData = none)
    (hw : 1 ≤ w) (httl : w ≤ st.memoryCache.ttl) :
    (processRequest cfg (processRequest cfg st key w 1 md t gf1 pf1).2 key w 1 md
      (t + w) gf2 pf2).1.allowed = true ∧
    (∃ r2, lookupE (processRequest cfg (processRequest cfg st key w 1 md t gf1 pf1).2
        key w 1 md (t + w) gf2 pf2).2.memoryCache.entries (generateKey key) =
          some ⟨r2, t + w⟩ ∧
      r2.timestamps = TsField.arr [t + w]) ∧
    (processRequest cfg (processRequest cfg st key w 1 md t gf1 pf1).2 key w 1 md
      (t + w - 1) gf3 pf3).1.allowed = false ∧
    (∃ r3, lookupE (processRequest cfg (processRequest cfg st key w 1 md t gf1 pf1).2
        key w 1 md (t + w - 1) gf3 pf3).2.memoryCache.entries (generateKey key) =
          some ⟨r3, t + w - 1⟩ ∧
      r3.timestamps = TsField.arr [t]) := by
  have hl1 : lookupE st.memoryCache.entries (generateKey key) = none := by
    rw [hent]
    rfl
  have hload1 : loadRecord cfg st.memoryCache st.kvData (generateKey key) t gf1 =
      (none, RLSource.new, st.memoryCache) :=
    loadRecord_miss_none hl1 (Or.inr (Or.inr hkv))
  have hev1 : evalWindow w 1 t [] = ⟨[], true, 0, [t]⟩ := by
    unfold evalWindow
    simp
  set st1 : LimiterState := (processRequest cfg st key w 1 md t gf1 pf1).2 with hst1
  have hst1P : st1 =
      ⟨st.memoryCache.set (generateKey key) ⟨TsField.arr [t], w, 1, t, md⟩ t,
       if cfg.kvEnabled && !pf1 then some ⟨TsField.arr [t], w, 1, t, md⟩
       else st.kvData⟩ := by
    rw [hst1, processRequest_eq_of_load cfg st key w 1 md t gf1 pf1 none RLSource.new
      st.memoryCache hload1 one_ne_zero]
    simp [hev1, tsOf]
  have hl2 : lookupE st1.memoryCache.entries (generateKey key) =
      some ⟨⟨TsField.arr [t], w, 1, t, md⟩, t⟩ := by
    rw [hst1P]
    exact lookupE_set_self _ _ _ _
  have httl1 : st1.memoryCache.ttl = st.memoryCache.ttl := by
    rw [hst1P]
    rfl
  have he2 : ¬(t + w - t > st1.memoryCache.ttl) := by
    rw [httl1]
    omega
  have hload2 := loadRecord_hit cfg st1.kvData gf2 hl2 he2
  have h2 := processRequest_eq_of_load cfg st1 key w 1 md (t + w) gf2 pf2
    (some ⟨TsField.arr [t], w, 1, t, md⟩) RLSource.cache _ hload2 one_ne_zero
  have hev2 : evalWindow w 1 (t + w) [t] = ⟨[], true, 0, [t + w]⟩ := by
    unfold evalWindow
    have hnot : ¬(t + w - w < t) := by omega
    simp [hnot]
  have he3 : ¬(t + w - 1 - t > st1.memoryCache.ttl) := by
    rw [httl1]
    omega
  have hload3 := loadRecord_hit cfg st1.kvData gf3 hl2 he3
  have h3 := processRequest_eq_of_load cfg st1 key w 1 md (t + w - 1) gf3 pf3
    (some ⟨TsField.arr [t], w, 1, t, md⟩) RLSource.cache _ hload3 one_ne_zero
  have hev3 : evalWindow w 1 (t + w - 1) [t] = ⟨[t], false, 1, [t]⟩ := by
    unfold evalWindow
    have hin : t + w - 1 - w < t := by omega
    have hone : t + w - (t + w - 1) = 1 := by ring
    simp [hin, hone]
    decide
  refine ⟨?_, ?_, ?_, ?_⟩
  · rw [h2]
    simp [hev2, tsOf]
  · rw [h2]
    exact ⟨_, lookupE_set_self _ _ _ _, by simp [hev2, tsOf]⟩
  · rw [h3]
    simp [hev3, tsOf]
  · rw [h3]
    exact ⟨_, lookupE_set_self _ _ _ _, by simp [hev3, tsOf]⟩

/-- Witness for `c2_window_boundary` at a concrete input (`t = 5`, `w = 10`):
the second call at `t + w = 15` is allowed, the one at `t + w - 1 = 14` is
denied. -/
theorem c2_window_boundary_witness :
    (processRequest ⟨5000, 3, false, 10, 100, 0, 0, false⟩
      (processRequest ⟨5000, 3, false, 10, 100, 0, 0, false⟩
        (initialState ⟨5000, 3, false, 10, 100, 0, 0, false⟩ none) "u" 10 1 none 5
        false false).2 "u" 10 1 none (5 + 10) false false).1.allowed = true ∧
    (processRequest ⟨5000, 3, false, 10, 100, 0, 0, false⟩
      (processRequest ⟨5000, 3, false, 10, 100, 0, 0, false⟩
        (initialState ⟨5000, 3, false, 10, 100, 0, 0, false⟩ none) "u" 10 1 none 5
        false false).2 "u" 10 1 none (5 + 10 - 1) false false).1.allowed = false :=
  ⟨(c2_window_boundary ⟨5000, 3, false, 10, 100, 0, 0, false⟩
      (initialState ⟨5000, 3, false, 10, 100, 0, 0, false⟩ none) "u" none 5 10
      false false false false false false rfl rfl (by decide) (by decide)).1,
   (c2_window_boundary ⟨5000, 3, false, 10, 100, 0, 0, false⟩
      (initialState ⟨5000, 3, false, 10, 100, 0, 0, false⟩ none) "u" none 5 10
      false false false false false false rfl rfl (by decide) (by decide)).2.2.1⟩

/-! ### C4: the stored-record invariant -/

/-- C4 counterexample: three allowed calls with `maxRequests = 3` store three
in-window timestamps; a fourth call passing the smaller `maxRequests = 2` is
denied but does *not* truncate the stored list, which keeps length 3 — more
than the `maxRequests` parameter of that most recent call. -/
theorem c4_lowered_max_counterexample :
    (lookupE (processRequest ⟨5000, 3, false, 100, 60000, 0, 0, false⟩
      (processRequest ⟨5000, 3, false, 100, 60000, 0, 0, false⟩
        (processRequest ⟨5000, 3, false, 100, 60000, 0, 0, false⟩
          (processRequest ⟨5000, 3, false, 100, 60000, 0, 0, false⟩
            (initialState ⟨5000, 3, false, 100, 60000, 0, 0, false⟩ none)
            "u" 100 3 none 0 false false).2
          "u" 100 3 none 1 false false).2
        "u" 100 3 none 2 false false).2
      "u" 100 2 none 3 false false).2.memoryCache.entries
      (generateKey "u")).map (fun e => tsOf e.value.timestamps) = some [0, 1, 2] ∧
    ¬((3 : Int) ≤ 2) ∧
    (processRequest ⟨5000, 3, false, 100, 60000, 0, 0, false⟩
      (processRequest ⟨5000, 3, false, 100, 60000, 0, 0, false⟩
        (processRequest ⟨5000, 3, false, 100, 60000, 0, 0, false⟩
          (processRequest ⟨5000, 3, false, 100, 60000, 0, 0, false⟩
            (initialState ⟨5000, 3, false, 100, 60000, 0, 0, false⟩ none)
            "u" 100 3 none 0 false false).2
          "u" 100 3 none 1 false false).2
        "u" 100 3 none 2 false false).2
      "u" 100 2 none 3 false false).1.allowed = false := by
  decide

/-- C4 amended: after a `checkRequest` evaluation (cache-hit case, list-shaped
timestamps, `maxRequests ≠ 0`), the stored record holds exactly the
evaluation's new timestamp list; that list is ascending (given an ascending
input whose entries precede `now`), and its length is bounded by `maxRequests`
whenever the call was allowed — and in general only by
`max maxRequests (pre-call in-window count)`: a denial never truncates, so a
later call passing a smaller `maxRequests` can leave more timestamps than its
own limit. -/
theorem c4_invariant_amended (cfg : RateLimitConfig) (st : LimiterState) (key : String)
    (w m : Int) (md : Option RLMetadata) (now : Int) (gf pf : Bool)
    (e : CacheEntry StoredRecord) (ts0 : List Int)
    (hl : lookupE st.memoryCache.entries (generateKey key) = some e)
    (he : ¬(now - e.timestamp > st.memoryCache.ttl))
    (hts : e.value.timestamps = TsField.arr ts0)
    (hm : m ≠ 0)
    (hsort : List.Pairwise (fun a b => a ≤ b) ts0)
    (hle : ∀ x ∈ ts0, x ≤ now) :
    ∃ rec, lookupE (processRequest cfg st key w m md now gf pf).2.memoryCache.entries
        (generateKey key) = some ⟨rec, now⟩ ∧
      rec.timestamps = TsField.arr (evalWindow w m now ts0).newTs ∧
      List.Pairwise (fun a b => a ≤ b) (evalWindow w m now ts0).newTs ∧
      ((evalWindow w m now ts0).isAllowed = true →
        ((evalWindow w m now ts0).newTs.length : Int) ≤ m) ∧
      ((evalWindow w m now ts0).newTs.length : Int) ≤
        max m ((ts0.filter (fun x => now - w < x)).length : Int) := by
  have hprw : List.Pairwise (fun a b => a ≤ b) (evalWindow w m now ts0).pruned := by
    rw [evalWindow_pruned]
    exact hsort.filter _
  have hprmem : ∀ x ∈ (evalWindow w m now ts0).pruned, x ≤ now := by
    intro x hx
    rw [evalWindow_pruned] at hx
    exact hle x (List.mem_filter.mp hx).1
  have hpw : List.Pairwise (fun a b => a ≤ b) (evalWindow w m now ts0).newTs := by
    rw [evalWindow_newTs]
    by_cases hA : (evalWindow w m now ts0).isAllowed
    · rw [if_pos hA]
      rw [List.pairwise_append]
      refine ⟨hprw, List.pairwise_singleton _ _, ?_⟩
      intro a ha b hb
      rw [List.mem_singleton] at hb
      subst hb
      exact hprmem a ha
    · rw [if_neg hA]
      exact hprw
  have hlen1 : (evalWindow w m now ts0).isAllowed = true →
      ((evalWindow w m now ts0).newTs.length : Int) ≤ m := by
    intro hA
    have hlt : (((evalWindow w m now ts0).pruned.length : Int)) < m := by
      have := hA
      rw [evalWindow_isAllowed] at this
      rw [evalWindow_pruned]
      exact of_decide_eq_true this
    rw [evalWindow_newTs, if_pos hA]
    rw [List.length_append]
    push_cast
    simp only [List.length_singleton]
    omega
  have hlen2 : ((evalWindow w m now ts0).newTs.length : Int) ≤
      max m ((ts0.filter (fun x => now - w < x)).length : Int) := by
    by_cases hA : (evalWindow w m now ts0).isAllowed
    · exact le_trans (hlen1 hA) (le_max_left _ _)
    · rw [evalWindow_newTs, if_neg hA, evalWindow_pruned]
      exact le_max_right _ _
  have hload := loadRecord_hit cfg st.kvData gf hl he
  rw [processRequest_eq_of_load cfg st key w m md now gf pf (some e.value)
    RLSource.cache _ hload hm]
  exact ⟨_, lookupE_set_self _ _ _ _, by simp [hts, tsOf], hpw, hlen1, hlen2⟩

/-- Witness for `c4_invariant_amended` at a concrete input. -/
theorem c4_invariant_amended_witness :
    ∃ rec, lookupE (processRequest ⟨5000, 3, false, 10, 100, 0, 0, false⟩
        ⟨⟨[("rl:v1:u", ⟨⟨TsField.arr [1, 2], 10, 3, 2, none⟩, 2⟩)], 10, 100⟩, none⟩
        "u" 10 3 none 6 false false).2.memoryCache.entries
        (generateKey "u") = some ⟨rec, 6⟩ ∧
      rec.timestamps = TsField.arr (evalWindow 10 3 6 [1, 2]).newTs ∧
      List.Pairwise (fun a b => a ≤ b) (evalWindow 10 3 6 [1, 2]).newTs ∧
      ((evalWindow 10 3 6 [1, 2]).isAllowed = true →
        ((evalWindow 10 3 6 [1, 2]).newTs.length : Int) ≤ 3) ∧
      ((evalWindow 10 3 6 [1, 2]).newTs.length : Int) ≤
        max 3 ((([1, 2] : List Int).filter (fun x => (6 : Int) - 10 < x)).length : Int) :=
  c4_invariant_amended ⟨5000, 3, false, 10, 100, 0, 0, false⟩
    ⟨⟨[("rl:v1:u", ⟨⟨TsField.arr [1, 2], 10, 3, 2, none⟩, 2⟩)], 10, 100⟩, none⟩
    "u" 10 3 none 6 false false ⟨⟨TsField.arr [1, 2], 10, 3, 2, none⟩, 2⟩ [1, 2]
    (by decide) (by decide) (by decide) (by decide)
    (by decide) (by decide)

/-! ### C1: the sliding-window admission bound -/

/-- Invariant carried across a trace of same-key calls whose times all lie in
`[lo, lo + windowMs)`: either nothing has been allowed yet, or the L1 cache
binds the key to a record whose timestamp list contains at least `n` entries
`≥ lo` (every allowed call appended its in-window time, and in-window entries
are never pruned by in-window calls), with `n` itself within the limit. -/
def InvP (key : String) (m lo : Int) (st : LimiterState) (n : Nat) : Prop :=
  n = 0 ∨
    ((n : Int) ≤ m ∧
      ∃ t₀ r ts, lo ≤ t₀ ∧
        lookupE st.memoryCache.entries (generateKey key) = some ⟨r, t₀⟩ ∧
        r.timestamps = TsField.arr ts ∧
        n ≤ (ts.filter (fun x => lo ≤ x)).length)

theorem InvP_le {key : String} {m lo : Int} {st : LimiterState} {n : Nat}
    (hm : 0 ≤ m) (h : InvP key m lo st n) : (n : Int) ≤ m := by
  rcases h with h | ⟨h1, _⟩
  · subst h
    simpa using hm
  · exact h1

theorem mutateValue_ttl2 {T : Type} (c : LRUCache T) (key : String) (v : T) :
    (c.mutateValue key v).ttl = c.ttl := rfl

theorem processRequest_ttl_preserved (cfg : RateLimitConfig) (st : LimiterState)
    (key : String) (w m : Int) (md : Option RLMetadata) (now : Int) (gf pf : Bool) :
    (processRequest cfg st key w m md now gf pf).2.memoryCache.ttl =
      st.memoryCache.ttl := by
  obtain ⟨ro, src, c2, h⟩ :
      ∃ ro src c2,
        loadRecord cfg st.memoryCache st.kvData (generateKey key) now gf = (ro, src, c2) :=
    ⟨_, _, _, rfl⟩
  have hc2 : c2.ttl = st.memoryCache.ttl := by
    have h0 := loadRecord_ttl cfg st.memoryCache st.kvData (generateKey key) now gf
    rw [h] at h0
    exact h0
  by_cases hm : m = 0
  · subst hm
    rw [processRequest_eq_of_load_zero cfg st key w md now gf pf ro src c2 h]
    by_cases hf : ro.isNone
    · simp [hf, hc2]
    · simp [hf, mutateValue_ttl2, hc2]
  · rw [processRequest_eq_of_load cfg st key w m md now gf pf ro src c2 h hm]
    simpa [set_ttl] using hc2

theorem filter_window_count (lo now w : Int) (ts : List Int) (hwin : now - w < lo) :
    ((ts.filter (fun x => now - w < x)).filter (fun x => lo ≤ x)).length =
      (ts.filter (fun x => lo ≤ x)).length := by
  rw [List.filter_filter]
  have : ∀ a ∈ ts, ((decide (lo ≤ a)) && (decide (now - w < a))) = decide (lo ≤ a) := by
    intro a _
    by_cases hla : lo ≤ a
    · have : now - w < a := by omega
      simp [hla, this]
    · simp [hla]
  rw [List.filter_congr this]

/-- One call keeps `InvP` and never pushes the allowed count past the limit. -/
theorem processRequest_step_inv (cfg : RateLimitConfig) (st : LimiterState) (key : String)
    (w m : Int) (md : Option RLMetadata) (now : Int) (gf pf : Bool) (lo : Int) (n : Nat)
    (hw : 0 < w) (hm : 0 ≤ m) (httl : w ≤ st.memoryCache.ttl)
    (hlo : lo ≤ now) (hhi : now < lo + w)
    (hInv : InvP key m lo st n) :
    InvP key m lo (processRequest cfg st key w m md now gf pf).2
      (n + (if (processRequest cfg st key w m md now gf pf).1.allowed then 1 else 0)) := by
  by_cases hm0 : m = 0
  · subst hm0
    obtain ⟨ro, src, c2, h⟩ :
        ∃ ro src c2,
          loadRecord cfg st.memoryCache st.kvData (generateKey key) now gf = (ro, src, c2) :=
      ⟨_, _, _, rfl⟩
    have hn0 : n = 0 := by
      have := InvP_le hm hInv
      omega
    subst hn0
    rw [processRequest_eq_of_load_zero cfg st key w md now gf pf ro src c2 h]
    exact Or.inl rfl
  · rcases hInv with hn0 | ⟨hnm, t₀, r, ts, hlot, hlook, hts, hcount⟩
    · subst hn0
      obtain ⟨ro, src, c2, h⟩ :
          ∃ ro src c2,
            loadRecord cfg st.memoryCache st.kvData (generateKey key) now gf =
              (ro, src, c2) :=
        ⟨_, _, _, rfl⟩
      rw [processRequest_eq_of_load cfg st key w m md now gf pf ro src c2 h hm0]
      set ts0 := tsOf (ro.getD
        (⟨TsField.arr [], w, m, now, md⟩ : StoredRecord)).timestamps with hts0
      by_cases hA : (evalWindow w m now ts0).isAllowed
      · have h1m : 1 ≤ m := by
          have := hA
          rw [evalWindow_isAllowed] at this
          have hlt := of_decide_eq_true this
          have : (0 : Int) ≤ ((ts0.filter (fun t => now - w < t)).length : Int) := by
            positivity
          omega
        refine Or.inr ⟨?_, now, _, (evalWindow w m now ts0).newTs, hlo,
          lookupE_set_self _ _ _ _, rfl, ?_⟩
        · simp [hA, h1m]
        · simp only [hA, if_true]
          rw [evalWindow_newTs, if_pos hA, List.filter_append]
          have hnowf : List.filter (fun x => decide (lo ≤ x)) [now] = [now] := by
            simp [hlo]
          rw [hnowf, List.length_append]
          simp
      · simp only [hA, if_false]
        exact Or.inl rfl
    · have hne : ¬(now - t₀ > st.memoryCache.ttl) := by omega
      have hload := loadRecord_hit cfg st.kvData gf hlook hne
      rw [processRequest_eq_of_load cfg st key w m md now gf pf (some (⟨r, t₀⟩ :
        CacheEntry StoredRecord).value) RLSource.cache _ hload hm0]
      simp only [Option.getD_some, hts, tsOf]
      have hcnt_pr : n ≤ ((ts.filter (fun t => now - w < t)).filter
          (fun x => lo ≤ x)).length := by
        rw [filter_window_count lo now w ts (by omega)]
        exact hcount
      by_cases hA : (evalWindow w m now ts).isAllowed
      · have hlt : ((ts.filter (fun t => now - w < t)).length : Int) < m := by
          have h0 := hA
          rw [evalWindow_isAllowed] at h0
          exact of_decide_eq_true h0
        have hcnt_le : ((ts.filter (fun x => lo ≤ x)).length : Nat) ≤
            (ts.filter (fun t => now - w < t)).length := by
          rw [← filter_window_count lo now w ts (by omega)]
          exact List.length_filter_le _ _
        refine Or.inr ⟨?_, now, _, (evalWindow w m now ts).newTs, hlo,
          lookupE_set_self _ _ _ _, rfl, ?_⟩
        · simp only [hA, if_true]
          push_cast
          omega
        · simp only [hA, if_true]
          rw [evalWindow_newTs, if_pos hA, List.filter_append]
          have hnowf : List.filter (fun x => decide (lo ≤ x)) [now] = [now] := by
            simp [hlo]
          rw [hnowf, List.length_append, evalWindow_pruned]
          simp only [List.length_singleton]
          omega
      · refine Or.inr ⟨?_, now, _, (evalWindow w m now ts).newTs, hlo,
          lookupE_set_self _ _ _ _, rfl, ?_⟩
        · simp only [hA, Bool.false_eq_true, if_false]
          omega
        · simp only [hA, Bool.false_eq_true, if_false]
          rw [evalWindow_newTs, if_neg hA, evalWindow_pruned]
          omega

theorem runCalls_cons (cfg : RateLimitConfig) (key : String) (w m : Int)
    (md : Option RLMetadata) (st : LimiterState) (c : CallSpec) (rest : List CallSpec) :
    runCalls cfg key w m md st (c :: rest) =
      ((if (processRequest cfg st key w m md c.now c.kvGetFails c.kvPutFails).1.allowed
          then 1 else 0) +
        (runCalls cfg key w m md
          (processRequest cfg st key w m md c.now c.kvGetFails c.kvPutFails).2 rest).1,
       (runCalls cfg key w m md
         (processRequest cfg st key w m md c.now c.kvGetFails c.kvPutFails).2 rest).2) :=
  rfl

theorem runCalls_bound_aux (cfg : RateLimitConfig) (key : String) (w m : Int)
    (md : Option RLMetadata) (lo : Int) (hw : 0 < w) (hm : 0 ≤ m) :
    ∀ (calls : List CallSpec) (st : LimiterState) (n : Nat),
      w ≤ st.memoryCache.ttl →
      (∀ c ∈ calls, lo ≤ c.now ∧ c.now < lo + w) →
      InvP key m lo st n →
      ((runCalls cfg key w m md st calls).1 : Int) + n ≤ m
  | [], st, n, _, _, hInv => by
    simpa [runCalls] using InvP_le hm hInv
  | c :: rest, st, n, httl, hc, hInv => by
    have hcc := hc c (List.mem_cons_self c rest)
    have hstep := processRequest_step_inv cfg st key w m md c.now c.kvGetFails
      c.kvPutFails lo n hw hm httl hcc.1 hcc.2 hInv
    have httl1 : w ≤ (processRequest cfg st key w m md c.now c.kvGetFails
        c.kvPutFails).2.memoryCache.ttl := by
      rw [processRequest_ttl_preserved]
      exact httl
    have hrest : ∀ x ∈ rest, lo ≤ x.now ∧ x.now < lo + w := fun x hx =>
      hc x (List.mem_cons_of_mem c hx)
    have IH := runCalls_bound_aux cfg key w m md lo hw hm rest _ _ httl1 hrest hstep
    rw [runCalls_cons]
    cases hA : (processRequest cfg st key w m md c.now c.kvGetFails c.kvPutFails).1.allowed
    · simp only [hA, Bool.false_eq_true, if_false] at IH ⊢
      push_cast at IH ⊢
      omega
    · simp only [hA, if_true] at IH ⊢
      push_cast at IH ⊢
      omega

/-- C1 counterexample: the unconditional admission bound is false on the code.
With `memoryCacheTTL = 5 < windowMs = 10`, the durable tier disabled and
`maxRequests = 1`, two calls at times `0` and `9` — both inside one sliding
window of length `10` — are *both* allowed: at the second call the L1 entry is
`9 − 0 = 9 > 5` ms old, so `LRUCache.get` TTL-evicts it, the limiter finds no
record anywhere and re-admits from a fresh one. -/
theorem c1_ttl_eviction_counterexample :
    ((runCalls ⟨5000, 3, false, 10, 5, 0, 0, false⟩ "u" 10 1 none
      (initialState ⟨5000, 3, false, 10, 5, 0, 0, false⟩ none)
      [⟨0, false, false⟩, ⟨9, false, false⟩]).1 : Int) = 2 ∧
    ¬((2 : Int) ≤ 1) := by
  decide

/-- C1 amended: for one key, across any serialized sequence of `checkRequest`
calls with the same `windowMs`/`maxRequests` whose times all fall within one
sliding window `[lo, lo + windowMs)` (the per-key cooperative lock of
`checkRequest` serializes concurrent same-key calls into such a sequence), the
number of results with `allowed = true` never exceeds `maxRequests` — from any
starting state and with arbitrary per-call durable-store failures — provided
the L1 cache TTL (set from `config.memoryCacheTTL`) is at least `windowMs`, so
that the record is not TTL-evicted between in-window calls; the counterexample
above shows the bound fails without that proviso. -/
theorem c1_sliding_window_allowed_bound (cfg : RateLimitConfig) (st : LimiterState)
    (key : String) (w m : Int) (md : Option RLMetadata) (lo : Int)
    (calls : List CallSpec) (hw : 0 < w) (hm : 0 ≤ m)
    (httl : w ≤ st.memoryCache.ttl)
    (hwin : ∀ c ∈ calls, lo ≤ c.now ∧ c.now < lo + w) :
    ((runCalls cfg key w m md st calls).1 : Int) ≤ m := by
  have h := runCalls_bound_aux cfg key w m md lo hw hm calls st 0 httl hwin (Or.inl rfl)
  simpa using h

/-- Witness for `c1_sliding_window_allowed_bound` at a concrete input: four
in-window calls (one with both durable-store operations failing) against
`maxRequests = 2`. -/
theorem c1_sliding_window_allowed_bound_witness :
    ((runCalls ⟨5000, 3, false, 10, 100, 0, 0, false⟩ "u" 10 2 none
      (initialState ⟨5000, 3, false, 10, 100, 0, 0, false⟩ none)
      [⟨0, false, false⟩, ⟨1, false, false⟩, ⟨2, true, true⟩,
       ⟨3, false, false⟩]).1 : Int) ≤ 2 :=
  c1_sliding_window_allowed_bound ⟨5000, 3, false, 10, 100, 0, 0, false⟩
    (initialState ⟨5000, 3, false, 10, 100, 0, 0, false⟩ none) "u" 10 2 none 0
    [⟨0, false, false⟩, ⟨1, false, false⟩, ⟨2, true, true⟩, ⟨3, false, false⟩]
    (by decide) (by decide) (by decide) (by decide)
